import Mathlib

attribute [local semireducible] Rat.add Rat.mul Rat.sub Rat.inv

/-!
Verification of the `ai-agent` workflow plugin (step handler, tool builders
and tool functions) against its specification.

The TypeScript sources are shallowly embedded: JavaScript numbers are
modelled by `JsNum` (exact rationals plus the `NaN` and infinity poles),
`undefined`-able string fields by `Option String`, and the external
`fetch`/`generateText` effects by explicit outcome values passed to the
embedded functions.
-/

namespace AiAgent

/-- JavaScript string truthiness for an optional field:
`undefined` and the empty string are falsy. -/
def jsTruthyStr (o : Option String) : Bool :=
  match o with
  | none => false
  | some s => !(s = "")

/-- `a || b` on an optional string field: the default replaces both
`undefined` and the empty string. -/
def jsOrStr (a : Option String) (b : String) : String :=
  match a with
  | none => b
  | some s => if s = "" then b else s

/-- Whitespace as skipped by `parseInt`/`parseFloat` and matched by `\s`. -/
def isJsWhitespace (c : Char) : Bool :=
  c = ' ' || c = '\t' || c = '\n' || c = '\r' || c = '\x0b' || c = '\x0c'

/-- A JavaScript number: an exact rational, an infinity, or `NaN`.
(The embedding works over exact rationals; every numeric literal and
arithmetic result appearing in the verified claims is exactly
representable.) -/
inductive JsNum where
  | nan
  | posInf
  | negInf
  | finite (q : ℚ)
  deriving DecidableEq, Repr

/-- `Math.min` on two JavaScript numbers: `NaN` absorbs. -/
def jsMin (a b : JsNum) : JsNum :=
  match a, b with
  | .nan, _ => .nan
  | _, .nan => .nan
  | .negInf, _ => .negInf
  | _, .negInf => .negInf
  | .posInf, x => x
  | x, .posInf => x
  | .finite p, .finite q => .finite (min p q)

/-- `Math.max` on two JavaScript numbers: `NaN` absorbs. -/
def jsMax (a b : JsNum) : JsNum :=
  match a, b with
  | .nan, _ => .nan
  | _, .nan => .nan
  | .posInf, _ => .posInf
  | _, .posInf => .posInf
  | .negInf, x => x
  | x, .negInf => x
  | .finite p, .finite q => .finite (max p q)

/-- Longest leading run of decimal digits, returned with the rest. -/
def spanDigits : List Char → List Char × List Char
  | [] => ([], [])
  | c :: cs =>
    if c.isDigit then
      let (ds, rest) := spanDigits cs
      (c :: ds, rest)
    else ([], c :: cs)

/-- Digit list to natural number (most significant first). -/
def digitsToNat (ds : List Char) : ℕ :=
  ds.foldl (fun acc c => 10 * acc + (c.toNat - '0'.toNat)) 0

/-- `Number.parseInt(s, 10)`: skip leading whitespace, optional sign,
longest decimal-digit prefix; `none` models `NaN`. -/
def jsParseInt (s : String) : Option ℤ :=
  let cs := s.data.dropWhile isJsWhitespace
  let (neg, cs) :=
    match cs with
    | '-' :: rest => (true, rest)
    | '+' :: rest => (false, rest)
    | _ => (false, cs)
  let (ds, _) := spanDigits cs
  if ds.isEmpty then none
  else some (if neg then -(digitsToNat ds : ℤ) else (digitsToNat ds : ℤ))

/-- `x || d` on a parsed integer: `NaN` and `0` are falsy and give the
default. -/
def jsOrInt (x : Option ℤ) (d : ℤ) : ℤ :=
  match x with
  | none => d
  | some n => if n = 0 then d else n

/-- `Number.parseFloat(s)`: skip leading whitespace, optional sign, an
`Infinity` literal or a decimal mantissa with optional exponent, taking the
longest valid prefix; `.nan` models a failed parse. -/
def jsParseFloat (s : String) : JsNum :=
  let cs := s.data.dropWhile isJsWhitespace
  let (neg, cs) :=
    match cs with
    | '-' :: rest => (true, rest)
    | '+' :: rest => (false, rest)
    | _ => (false, cs)
  if "Infinity".data.isPrefixOf cs then
    if neg then .negInf else .posInf
  else
    let (intDs, cs1) := spanDigits cs
    let (fracDs, cs2) :=
      match cs1 with
      | '.' :: rest => spanDigits rest
      | _ => ([], cs1)
    if intDs.isEmpty ∧ fracDs.isEmpty then .nan
    else
      let mantissa : ℚ :=
        (digitsToNat intDs : ℚ) + (digitsToNat fracDs : ℚ) / (10 : ℚ) ^ fracDs.length
      let expo : ℤ :=
        match cs2 with
        | 'e' :: rest | 'E' :: rest =>
          let (esign, rest') :=
            match rest with
            | '-' :: r => ((-1 : ℤ), r)
            | '+' :: r => ((1 : ℤ), r)
            | _ => ((1 : ℤ), rest)
          let (eds, _) := spanDigits rest'
          if eds.isEmpty then 0 else esign * (digitsToNat eds : ℤ)
        | _ => 0
      let v := mantissa * (10 : ℚ) ^ expo
      .finite (if neg then -v else v)

/-- `s.trim()`: strip leading and trailing whitespace. -/
def jsTrim (s : String) : String :=
  String.mk (((s.data.dropWhile isJsWhitespace).reverse.dropWhile isJsWhitespace).reverse)

/-- Splitting on a separator character, keeping empty fields
(`"a,,b".split(",") = ["a", "", "b"]`, `"".split(",") = [""]`). -/
def jsSplitAux (sep : Char) : List Char → List Char → List (List Char)
  | [], acc => [acc.reverse]
  | c :: cs, acc =>
    if c = sep then acc.reverse :: jsSplitAux sep cs []
    else jsSplitAux sep cs (c :: acc)

/-- `s.split(sep)` for a one-character separator. -/
def jsSplit (s : String) (sep : Char) : List String :=
  (jsSplitAux sep s.data []).map String.mk

/-- `sub` occurs as a contiguous subsequence of `l`. -/
def containsSeq (l sub : List Char) : Bool :=
  if sub.isPrefixOf l then true
  else
    match l with
    | [] => false
    | _ :: t => containsSeq t sub

/-- `s.includes(sub)`: substring test on the underlying character lists. -/
def jsIncludes (s sub : String) : Bool :=
  containsSeq s.data sub.data

/-- `provider.charAt(0).toUpperCase() + provider.slice(1)`. -/
def capitalizeJs (s : String) : String :=
  match s.data with
  | [] => ""
  | c :: rest => String.mk (c.toUpper :: rest)

/-- The flat string-typed configuration record handed to the step
(`RunAgentCoreInput` in `run-agent`); `none` models an absent field. -/
structure RunAgentCoreInput where
  agentProvider : Option String := none
  agentModelOpenai : Option String := none
  agentModelAnthropic : Option String := none
  agentModelGoogle : Option String := none
  agentModelMeta : Option String := none
  agentModelMistral : Option String := none
  agentModelGroq : Option String := none
  agentModelXai : Option String := none
  agentShowAdvanced : Option String := none
  agentTemperature : Option String := none
  agentMaxTokens : Option String := none
  agentTopP : Option String := none
  agentFrequencyPenalty : Option String := none
  agentPresencePenalty : Option String := none
  agentReasoningEffort : Option String := none
  agentStopSequences : Option String := none
  agentResponseFormat : Option String := none
  agentGoal : Option String := none
  agentTools : Option String := none
  agentMaxSteps : Option String := none
  agentSystemPrompt : Option String := none
  deriving DecidableEq, Repr

/-- The credential map (`AiAgentCredentials` in `credentials.ts`). -/
structure AiAgentCredentials where
  AI_GATEWAY_API_KEY : Option String := none
  OPENAI_API_KEY : Option String := none
  ANTHROPIC_API_KEY : Option String := none
  GOOGLE_API_KEY : Option String := none
  GROQ_API_KEY : Option String := none
  MISTRAL_API_KEY : Option String := none
  XAI_API_KEY : Option String := none
  deriving DecidableEq, Repr

/-- The provider-specific credential consulted by the `switch` in
`getProviderApiKey` (no case exists for `meta` or unknown providers). -/
def specificKey (c : AiAgentCredentials) (provider : String) : Option String :=
  if provider = "openai" then c.OPENAI_API_KEY
  else if provider = "anthropic" then c.ANTHROPIC_API_KEY
  else if provider = "google" then c.GOOGLE_API_KEY
  else if provider = "groq" then c.GROQ_API_KEY
  else if provider = "mistral" then c.MISTRAL_API_KEY
  else if provider = "xai" then c.XAI_API_KEY
  else none

/-- `getProviderApiKey` (`credentials.ts`): provider-specific key when
truthy, otherwise the universal AI Gateway key. -/
def getProviderApiKey (c : AiAgentCredentials) (provider : String) : Option String :=
  if jsTruthyStr (specificKey c provider) then specificKey c provider
  else c.AI_GATEWAY_API_KEY

/-- Provider resolution: `input.agentProvider || "openai"`. -/
def resolveProvider (input : RunAgentCoreInput) : String :=
  jsOrStr input.agentProvider "openai"

/-- Model-id resolution: the `(provider === ... && input.agentModel...) ||
... || "openai/gpt-4o"` chain, with JavaScript truthiness on each field. -/
def resolveModelId (input : RunAgentCoreInput) (provider : String) : String :=
  if provider = "openai" ∧ jsTruthyStr input.agentModelOpenai then
    jsOrStr input.agentModelOpenai "openai/gpt-4o"
  else if provider = "anthropic" ∧ jsTruthyStr input.agentModelAnthropic then
    jsOrStr input.agentModelAnthropic "openai/gpt-4o"
  else if provider = "google" ∧ jsTruthyStr input.agentModelGoogle then
    jsOrStr input.agentModelGoogle "openai/gpt-4o"
  else if provider = "meta" ∧ jsTruthyStr input.agentModelMeta then
    jsOrStr input.agentModelMeta "openai/gpt-4o"
  else if provider = "mistral" ∧ jsTruthyStr input.agentModelMistral then
    jsOrStr input.agentModelMistral "openai/gpt-4o"
  else if provider = "groq" ∧ jsTruthyStr input.agentModelGroq then
    jsOrStr input.agentModelGroq "openai/gpt-4o"
  else if provider = "xai" ∧ jsTruthyStr input.agentModelXai then
    jsOrStr input.agentModelXai "openai/gpt-4o"
  else "openai/gpt-4o"

/-- Effective step budget:
`Math.min(50, Math.max(1, Number.parseInt(input.agentMaxSteps || "10", 10) || 10))`. -/
def effMaxSteps (input : RunAgentCoreInput) : ℤ :=
  min 50 (max 1 (jsOrInt (jsParseInt (jsOrStr input.agentMaxSteps "10")) 10))

/-- `input.agentShowAdvanced === "true"`. -/
def showAdvanced (input : RunAgentCoreInput) : Bool :=
  input.agentShowAdvanced = some "true"

/-- Effective temperature:
`Math.max(0, Math.min(2, parseFloat(input.agentTemperature || "0.7")))`
when advanced options are shown, else `0.7`. -/
def effTemperature (input : RunAgentCoreInput) : JsNum :=
  if showAdvanced input then
    jsMax (.finite 0) (jsMin (.finite 2) (jsParseFloat (jsOrStr input.agentTemperature "0.7")))
  else .finite (7 / 10)

/-- Effective `maxOutputTokens`:
`Math.max(1, parseInt(input.agentMaxTokens || "4096", 10))` when advanced
options are shown, else `4096`; a failed parse is `NaN`. -/
def effMaxTokens (input : RunAgentCoreInput) : JsNum :=
  if showAdvanced input then
    jsMax (.finite 1)
      (match jsParseInt (jsOrStr input.agentMaxTokens "4096") with
       | none => .nan
       | some n => .finite (n : ℚ))
  else .finite 4096

/-- Effective `topP`:
`Math.max(0, Math.min(1, parseFloat(input.agentTopP || "1.0")))` when
advanced options are shown, else `1.0`. -/
def effTopP (input : RunAgentCoreInput) : JsNum :=
  if showAdvanced input then
    jsMax (.finite 0) (jsMin (.finite 1) (jsParseFloat (jsOrStr input.agentTopP "1.0")))
  else .finite 1

/-- Effective frequency penalty:
`Math.max(-2, Math.min(2, parseFloat(input.agentFrequencyPenalty || "0")))`
when advanced options are shown, else `0`. -/
def effFrequencyPenalty (input : RunAgentCoreInput) : JsNum :=
  if showAdvanced input then
    jsMax (.finite (-2)) (jsMin (.finite 2) (jsParseFloat (jsOrStr input.agentFrequencyPenalty "0")))
  else .finite 0

/-- Effective presence penalty:
`Math.max(-2, Math.min(2, parseFloat(input.agentPresencePenalty || "0")))`
when advanced options are shown, else `0`. -/
def effPresencePenalty (input : RunAgentCoreInput) : JsNum :=
  if showAdvanced input then
    jsMax (.finite (-2)) (jsMin (.finite 2) (jsParseFloat (jsOrStr input.agentPresencePenalty "0")))
  else .finite 0

/-- Reasoning-model detection:
`modelId.includes("/o1") || modelId.includes("/o3")`. -/
def isReasoningModel (modelId : String) : Bool :=
  jsIncludes modelId "/o1" || jsIncludes modelId "/o3"

/-! ### Tool registry (`buildTools`) -/

/-- Which execute-function backs a registered tool. -/
inductive ToolImpl where
  | webSearchNative
  | scrapeUrlNative
  | httpRequestNative
  | calculateNative
  | firecrawlSearchPremium
  | firecrawlScrapePremium
  deriving DecidableEq, Repr

/-- A JavaScript object used as a string-keyed map: an association list in
insertion order; assigning an existing key overwrites in place. -/
def objSet (m : List (String × ToolImpl)) (k : String) (v : ToolImpl) :
    List (String × ToolImpl) :=
  if m.any (fun p => p.1 = k) then
    m.map (fun p => if p.1 = k then (k, v) else p)
  else m ++ [(k, v)]

/-- Key lookup in a JavaScript object. -/
def objGet : List (String × ToolImpl) → String → Option ToolImpl
  | [], _ => none
  | p :: rest, k => if p.1 = k then some p.2 else objGet rest k

/-- The `allTools` object of `buildTools`: the four native tools, plus the
two Firecrawl tools when a Firecrawl API key is available. -/
def allTools (firecrawlApiKey : Option String) : List (String × ToolImpl) :=
  [("web_search", .webSearchNative),
   ("scrape_url", .scrapeUrlNative),
   ("http_request", .httpRequestNative),
   ("calculate", .calculateNative)] ++
  (if firecrawlApiKey.isSome then
    [("firecrawl_search", .firecrawlSearchPremium),
     ("firecrawl_scrape", .firecrawlScrapePremium)]
   else [])

/-- One iteration of the selection loop in `buildTools`. -/
def buildToolsStep (firecrawlApiKey : Option String)
    (tools : List (String × ToolImpl)) (name : String) :
    List (String × ToolImpl) :=
  let avail := allTools firecrawlApiKey
  match objGet avail name with
  | some impl => objSet tools name impl
  | none =>
    if (name = "firecrawl_search" ∨ name = "firecrawl_scrape") ∧ firecrawlApiKey.isNone then
      if name = "firecrawl_search" then
        objSet tools "web_search" .webSearchNative
      else
        objSet tools "scrape_url" .scrapeUrlNative
    else tools

/-- `buildTools(selectedTools, firecrawlApiKey)`: the active tool object,
in registration order. -/
def buildTools (selectedTools : List String) (firecrawlApiKey : Option String) :
    List (String × ToolImpl) :=
  selectedTools.foldl (buildToolsStep firecrawlApiKey) []

/-- The model-facing tool name list of a built tool object. -/
def toolNames (m : List (String × ToolImpl)) : List String :=
  m.map Prod.fst

/-! ### The `calculate` tool -/

/-- The sanitization whitelist of `calculate`: the character class
`[0-9+\-*/().%\s]`. -/
def calcAllowed (c : Char) : Bool :=
  c.isDigit || c = '+' || c = '-' || c = '*' || c = '/' ||
  c = '(' || c = ')' || c = '.' || c = '%' || isJsWhitespace c

/-- `expression.replace(/[^0-9+\-*\/().%\s]/g, "")`: delete every character
outside the whitelist. -/
def sanitizeCalc (s : String) : String :=
  String.mk (s.data.filter calcAllowed)

/-- Tokens of the sanitized arithmetic expression. -/
inductive CalcTok where
  | num (q : ℚ)
  | plus | minus | star | slash | percent | lparen | rparen
  deriving DecidableEq, Repr

/-- Fuelled tokenizer for the whitelisted character set: numbers are digit
runs with an optional single decimal point; any malformed lexeme fails.
Each step consumes at least one character, so fuel equal to the input
length is always sufficient. -/
def calcTokenizeAux : ℕ → List Char → Option (List CalcTok)
  | _, [] => some []
  | 0, _ :: _ => none
  | fuel + 1, c :: cs =>
    if isJsWhitespace c then calcTokenizeAux fuel cs
    else if c = '+' then (calcTokenizeAux fuel cs).map (.plus :: ·)
    else if c = '-' then (calcTokenizeAux fuel cs).map (.minus :: ·)
    else if c = '*' then (calcTokenizeAux fuel cs).map (.star :: ·)
    else if c = '/' then (calcTokenizeAux fuel cs).map (.slash :: ·)
    else if c = '%' then (calcTokenizeAux fuel cs).map (.percent :: ·)
    else if c = '(' then (calcTokenizeAux fuel cs).map (.lparen :: ·)
    else if c = ')' then (calcTokenizeAux fuel cs).map (.rparen :: ·)
    else if c.isDigit ∨ c = '.' then
      let (intDs, rest) := spanDigits (c :: cs)
      let (fracDs, rest') :=
        match rest with
        | '.' :: r => spanDigits r
        | _ => ([], rest)
      if intDs.isEmpty ∧ fracDs.isEmpty then none
      else
        let q : ℚ :=
          (digitsToNat intDs : ℚ) + (digitsToNat fracDs : ℚ) / (10 : ℚ) ^ fracDs.length
        (calcTokenizeAux fuel rest').map (.num q :: ·)
    else none

/-- Tokenize a sanitized expression. -/
def calcTokenize (cs : List Char) : Option (List CalcTok) :=
  calcTokenizeAux cs.length cs

/-- Operators of the arithmetic grammar reachable through the whitelist:
binary `+ - * / %`, unary sign, and a parenthesis marker. -/
inductive CalcOp where
  | add | sub | mul | div | mod | neg | pos | lpar
  deriving DecidableEq, Repr

/-- Operator precedence (unary sign binds tightest). -/
def calcOpPrec : CalcOp → ℕ
  | .add | .sub => 1
  | .mul | .div | .mod => 2
  | .neg | .pos => 3
  | .lpar => 0

/-- Truncation toward zero, as used by the JavaScript `%` operator. -/
def jsTrunc (q : ℚ) : ℤ :=
  if 0 ≤ q then ⌊q⌋ else ⌈q⌉

/-- Apply one operator to the operand stack (head is the newest operand).
Division or remainder by zero is outside the modelled fragment and fails. -/
def applyCalcOp (op : CalcOp) (operands : List ℚ) : Option (List ℚ) :=
  match op, operands with
  | .neg, a :: rest => some (-a :: rest)
  | .pos, a :: rest => some (a :: rest)
  | .add, b :: a :: rest => some ((a + b) :: rest)
  | .sub, b :: a :: rest => some ((a - b) :: rest)
  | .mul, b :: a :: rest => some ((a * b) :: rest)
  | .div, b :: a :: rest => if b = 0 then none else some ((a / b) :: rest)
  | .mod, b :: a :: rest =>
    if b = 0 then none else some ((a - b * (jsTrunc (a / b) : ℚ)) :: rest)
  | _, _ => none

/-- Pop and apply stacked operators whose precedence is at least
`minPrec`, stopping at an open parenthesis. -/
def popCalcOps (minPrec : ℕ) : List CalcOp → List ℚ → Option (List CalcOp × List ℚ)
  | [], operands => some ([], operands)
  | op :: rest, operands =>
    if op ≠ .lpar ∧ minPrec ≤ calcOpPrec op then
      match applyCalcOp op operands with
      | some operands' => popCalcOps minPrec rest operands'
      | none => none
    else some (op :: rest, operands)

/-- Pop and apply operators down to the matching open parenthesis. -/
def popToLparen : List CalcOp → List ℚ → Option (List CalcOp × List ℚ)
  | [], _ => none
  | .lpar :: rest, operands => some (rest, operands)
  | op :: rest, operands =>
    match applyCalcOp op operands with
    | some operands' => popToLparen rest operands'
    | none => none

/-- Shunting-yard state: operand stack, operator stack, and whether the
previous token completed an operand (distinguishing unary sign). -/
structure CalcState where
  operands : List ℚ
  ops : List CalcOp
  prevOperand : Bool
  deriving DecidableEq, Repr

/-- Process one token of the arithmetic expression. -/
def calcStep (st : CalcState) (t : CalcTok) : Option CalcState :=
  match t with
  | .num q =>
    if st.prevOperand then none
    else some ⟨q :: st.operands, st.ops, true⟩
  | .plus =>
    if st.prevOperand then
      (popCalcOps 1 st.ops st.operands).map
        (fun p => ⟨p.2, .add :: p.1, false⟩)
    else some ⟨st.operands, .pos :: st.ops, false⟩
  | .minus =>
    if st.prevOperand then
      (popCalcOps 1 st.ops st.operands).map
        (fun p => ⟨p.2, .sub :: p.1, false⟩)
    else some ⟨st.operands, .neg :: st.ops, false⟩
  | .star =>
    if st.prevOperand then
      (popCalcOps 2 st.ops st.operands).map
        (fun p => ⟨p.2, .mul :: p.1, false⟩)
    else none
  | .slash =>
    if st.prevOperand then
      (popCalcOps 2 st.ops st.operands).map
        (fun p => ⟨p.2, .div :: p.1, false⟩)
    else none
  | .percent =>
    if st.prevOperand then
      (popCalcOps 2 st.ops st.operands).map
        (fun p => ⟨p.2, .mod :: p.1, false⟩)
    else none
  | .lparen =>
    if st.prevOperand then none
    else some ⟨st.operands, .lpar :: st.ops, false⟩
  | .rparen =>
    if st.prevOperand then
      (popToLparen st.ops st.operands).map
        (fun p => ⟨p.2, p.1, true⟩)
    else none

/-- Evaluate a token stream; fails on any syntax error, exactly where the
JavaScript evaluation of `return (<sanitized>)` would throw. -/
def evalCalcToks (toks : List CalcTok) : Option ℚ :=
  match toks.foldlM calcStep ⟨[], [], false⟩ with
  | none => none
  | some st =>
    if st.prevOperand then
      match popCalcOps 1 st.ops st.operands with
      | some ([], [v]) => some v
      | _ => none
    else none

/-- Decimal digits of a fractional remainder `r / d` (most significant
first), to at most `fuel` places. -/
def fracDigitsAux : ℕ → ℕ → ℕ → List Char
  | 0, _, _ => []
  | _ + 1, 0, _ => []
  | fuel + 1, r, d =>
    Char.ofNat ('0'.toNat + r * 10 / d) :: fracDigitsAux fuel (r * 10 % d) d

/-- `String(result)` for the modelled numbers: integers print exactly as
in JavaScript; non-integers print as a plain decimal expansion (every
result appearing in a verified claim is an integer). -/
def ratToJsString (q : ℚ) : String :=
  if q.den = 1 then toString q.num
  else
    let n := q.num.natAbs
    let d := q.den
    (if q.num < 0 then "-" else "") ++ toString (n / d) ++ "." ++
      String.mk (fracDigitsAux 20 (n % d) d)

/-- The `calculate` tool: sanitize against the whitelist, reject an empty
sanitized expression, then evaluate `return (<sanitized>)`, converting any
evaluation failure to a fixed error string. The modelled arithmetic
fragment is the grammar of numbers, `+ - * / %` and parentheses over exact
rationals; `//` comment syntax, the `**` operator, division by zero and
binary-float rounding fall outside it. -/
def calculate (expression : String) : String :=
  let sanitized := sanitizeCalc expression
  if sanitized = "" then "Invalid expression"
  else
    match calcTokenize sanitized.data >>= evalCalcToks with
    | some v => ratToJsString v
    | none => "Could not evaluate expression"

/-! ### Transcript shaping (`onStepFinish`) and the step handler -/

/-- Transcript entry kinds (`AgentStep.type`). -/
inductive StepKind where
  | tool_call | tool_result | text
  deriving DecidableEq, Repr

/-- A transcript entry (`AgentStep` in `run-agent`). -/
structure AgentStep where
  type : StepKind
  toolName : Option String := none
  input : Option (List (String × String)) := none
  output : Option String := none
  text : Option String := none
  deriving DecidableEq, Repr

/-- One tool call reported by a step-finish callback. -/
structure ToolCallEv where
  toolName : String
  input : List (String × String)
  deriving DecidableEq, Repr

/-- One tool result reported by a step-finish callback. -/
structure ToolResultEv where
  output : String
  deriving DecidableEq, Repr

/-- One `onStepFinish` callback payload: possibly-absent tool call and
tool result arrays and the step's text (empty when no text). -/
structure StepEvent where
  toolCalls : Option (List ToolCallEv) := none
  toolResults : Option (List ToolResultEv) := none
  text : String := ""
  deriving DecidableEq, Repr

/-- The body of the `for` loop over `toolCalls`: each iteration appends a
`tool_call` entry and its `tool_result` entry; indexing past the end of
`toolResults` models the `TypeError` the JavaScript loop would throw. -/
def pushPairs : List ToolCallEv → List ToolResultEv → Except String (List AgentStep)
  | [], _ => .ok []
  | tc :: tcs, tr :: trs =>
    match pushPairs tcs trs with
    | .ok rest =>
      .ok ({ type := .tool_call, toolName := some tc.toolName, input := some tc.input } ::
           { type := .tool_result, toolName := some tc.toolName, output := some tr.output } ::
           rest)
    | .error e => .error e
  | _ :: _, [] => .error "Cannot read properties of undefined"

/-- The `if (text)` push at the end of the callback. -/
def textEntries (ev : StepEvent) : List AgentStep :=
  if ev.text = "" then [] else [{ type := .text, text := some ev.text }]

/-- Entries appended by one callback, with the number of `toolCallCount`
increments it performs. -/
def eventSteps (ev : StepEvent) : Except String (List AgentStep × ℕ) :=
  match ev.toolCalls, ev.toolResults with
  | some tcs, some trs =>
    match pushPairs tcs trs with
    | .ok ps => .ok (ps ++ textEntries ev, tcs.length)
    | .error e => .error e
  | _, _ => .ok (textEntries ev, 0)

/-- Accumulate every callback of a run, in callback order. -/
def processEvents : List StepEvent → Except String (List AgentStep × ℕ)
  | [] => .ok ([], 0)
  | ev :: rest =>
    match eventSteps ev with
    | .error e => .error e
    | .ok (ps, n) =>
      match processEvents rest with
      | .error e => .error e
      | .ok (tail, m) => .ok (ps ++ tail, n + m)

/-- The `openai` bag inside `providerOptions`. -/
structure OpenAiOptions where
  reasoningEffort : Option String := none
  responseFormat : Option String := none
  deriving DecidableEq, Repr

/-- Provider-specific options passed to the generation call. -/
structure ProviderOptions where
  openai : OpenAiOptions
  deriving DecidableEq, Repr

/-- The `providerOptions` construction: reasoning models get a
`reasoningEffort`; JSON response format merges a `responseFormat` onto
whatever `openai` bag already exists. -/
def buildProviderOptions (isReasoning : Bool) (reasoningEffort responseFormat : String) :
    Option ProviderOptions :=
  let po : Option ProviderOptions :=
    if isReasoning then some ⟨⟨some reasoningEffort, none⟩⟩ else none
  if responseFormat = "json" then
    match po with
    | some p => some ⟨⟨p.openai.reasoningEffort, some "json_object"⟩⟩
    | none => some ⟨⟨none, some "json_object"⟩⟩
  else po

/-- The `stopSequences` configuration value:
`input.agentStopSequences ? split(",").map(trim) : undefined`. -/
def effStopSequences (input : RunAgentCoreInput) : Option (List String) :=
  if jsTruthyStr input.agentStopSequences then
    some ((jsSplit (jsOrStr input.agentStopSequences "") ',').map jsTrim)
  else none

/-- The default system prompt (`DEFAULT_SYSTEM_PROMPT`). -/
def DEFAULT_SYSTEM_PROMPT : String :=
  "You are an autonomous AI agent that accomplishes goals by using available tools.\n\nInstructions:\n- Break down complex goals into steps\n- Use tools to gather information and take actions\n- Be thorough but efficient - don't make unnecessary tool calls\n- When you have enough information to answer, provide a clear final response\n- If a tool fails, try an alternative approach"

/-- The request object handed to `generateText`: `none` on an optional
field models omission from the request. -/
structure GenArgs where
  model : String
  system : String
  prompt : String
  tools : List (String × ToolImpl)
  stopWhenStepCount : ℤ
  maxOutputTokens : JsNum
  temperature : Option JsNum := none
  topP : Option JsNum := none
  frequencyPenalty : Option JsNum := none
  presencePenalty : Option JsNum := none
  stopSequences : Option (List String) := none
  providerOptions : Option ProviderOptions := none
  deriving DecidableEq, Repr

/-- The request object built by `stepHandler` for the generation call. -/
def agentGenArgs (input : RunAgentCoreInput) (firecrawlApiKey : Option String) : GenArgs :=
  let provider := resolveProvider input
  let modelId := resolveModelId input provider
  let reasoning := isReasoningModel modelId
  let stops := effStopSequences input
  { model := modelId
    system := jsOrStr input.agentSystemPrompt DEFAULT_SYSTEM_PROMPT
    prompt := (input.agentGoal.map jsTrim).getD ""
    tools := buildTools (jsSplit (jsOrStr input.agentTools "web_search,scrape_url,calculate") ',')
      firecrawlApiKey
    stopWhenStepCount := effMaxSteps input
    maxOutputTokens := effMaxTokens input
    temperature := if reasoning then none else some (effTemperature input)
    topP := if reasoning then none else some (effTopP input)
    frequencyPenalty := if reasoning then none else some (effFrequencyPenalty input)
    presencePenalty := if reasoning then none else some (effPresencePenalty input)
    stopSequences :=
      match stops with
      | some l => if 0 < l.length then some l else none
      | none => none
    providerOptions :=
      buildProviderOptions reasoning (jsOrStr input.agentReasoningEffort "medium")
        (jsOrStr input.agentResponseFormat "text") }

/-- Outcome of the external `generateText` call: an exception, or a
completed run with its step-finish callbacks and final text. -/
inductive GenOutcome where
  | threw (message : String)
  | finished (events : List StepEvent) (text : String)
  deriving DecidableEq, Repr

/-- The step's result record (`RunAgentResult`): a failure carries only a
message, never transcript data. -/
inductive RunAgentResult where
  | ok (result : String) (steps : List AgentStep) (toolCalls : ℕ)
  | err (message : String)
  deriving DecidableEq, Repr

/-- The missing-API-key failure message. -/
def noApiKeyMsg (provider : String) : String :=
  "No API key configured for " ++ capitalizeJs provider ++ ". Please add either a " ++
    capitalizeJs provider ++ " API key or an AI Gateway key in Project Integrations."

/-- `stepHandler` (`run-agent`), parameterized by the external generation
service `gen`: resolve provider and credentials, validate the goal, build
the request, run generation, and shape its callbacks into the result. -/
def stepHandler (input : RunAgentCoreInput) (credentials : AiAgentCredentials)
    (firecrawlApiKey : Option String) (gen : GenArgs → GenOutcome) : RunAgentResult :=
  let provider := resolveProvider input
  let apiKey := getProviderApiKey credentials provider
  if !(jsTruthyStr apiKey) then .err (noApiKeyMsg provider)
  else
    let goal := input.agentGoal.map jsTrim
    if !(jsTruthyStr goal) then .err "Goal is required for the agent"
    else
      match gen (agentGenArgs input firecrawlApiKey) with
      | .threw m => .err ("Agent execution failed: " ++ m)
      | .finished events text =>
        match processEvents events with
        | .error m => .err ("Agent execution failed: " ++ m)
        | .ok (steps, cnt) =>
          .ok (if text = "" then "Agent completed without a final response" else text)
            steps cnt

/-! ### The `scrape_url` tool -/

/-- Outcome of a `fetch`: a thrown network error, or a response with its
`ok` flag, status, status text and body. -/
inductive FetchOutcome where
  | threw (message : String)
  | resp (ok : Bool) (status : ℕ) (statusText : String) (body : String)
  deriving DecidableEq, Repr

/-- The `try` body of `scrapeUrl`, parameterized by the pure HTML-to-text
extraction pipeline `extract` (the title/meta/strip/convert/clean/truncate
sequence), which cannot itself throw. -/
def scrapeUrlTry (extract : String → String) (outcome : FetchOutcome) : Except String String :=
  match outcome with
  | .threw m => .error m
  | .resp ok status statusText body =>
    if !ok then .error ("HTTP " ++ toString status ++ ": " ++ statusText)
    else
      let output := extract body
      .ok (if output = "" then "Could not extract meaningful content from URL" else output)

/-- `scrapeUrl`: the `try`/`catch` converts any failure into a
`Failed to scrape URL: ...` string. -/
def scrapeUrl (extract : String → String) (outcome : FetchOutcome) : String :=
  match scrapeUrlTry extract outcome with
  | .ok s => s
  | .error m => "Failed to scrape URL: " ++ m

/-! ### The `web_search` tool -/

/-- One candidate search result. -/
structure SearchResult where
  title : String
  snippet : String
  url : String
  deriving DecidableEq, Repr

/-- What each search strategy contributed: `none` models a thrown
fetch/parse error (swallowed by the per-strategy `catch`), `some rs` the
results the strategy block pushed. -/
structure WebSources where
  wiki : Option (List SearchResult) := none
  ddg : Option (List SearchResult) := none
  hn : Option (List SearchResult) := none
  deriving DecidableEq, Repr

/-- The alternatives of the technical-query regular expression
`/tech|programming|software|startup|ai|machine learning|javascript|python|react|node/i`. -/
def techKeywords : List String :=
  ["tech", "programming", "software", "startup", "ai", "machine learning",
   "javascript", "python", "react", "node"]

/-- `s.toLowerCase()` character by character. -/
def jsToLower (s : String) : String :=
  String.mk (s.data.map Char.toLower)

/-- Case-insensitive test of the technical-query pattern. -/
def isTechQuery (q : String) : Bool :=
  techKeywords.any (fun k => containsSeq (jsToLower q).data k.data)

/-- Deduplicate by URL, first occurrence wins (`seen` set filter). -/
def dedupeByUrlAux : List String → List SearchResult → List SearchResult
  | _, [] => []
  | seen, r :: rest =>
    if seen.contains r.url then dedupeByUrlAux seen rest
    else r :: dedupeByUrlAux (r.url :: seen) rest

/-- Deduplicate a result list by URL. -/
def dedupeByUrl (rs : List SearchResult) : List SearchResult :=
  dedupeByUrlAux [] rs

/-- Format one numbered search result. -/
def formatSearchResult (i : ℕ) (r : SearchResult) : String :=
  toString (i + 1) ++ ". " ++ r.title ++ "\n" ++
    (if r.snippet = "" then "" else "   " ++ r.snippet ++ "\n") ++
    "   URL: " ++ r.url

/-- The message returned when no source produced a result. -/
def noResultsMsg (query : String) : String :=
  "No search results found for \"" ++ query ++
    "\". Try rephrasing your query or using more specific terms."

/-- `webSearch`: collect the contributions of the Wikipedia and DuckDuckGo
strategies, add Hacker News results for technical queries when fewer than
three results were found, and either report no results or format the
URL-deduplicated list. -/
def webSearch (query : String) (src : WebSources) : String :=
  let results := src.wiki.getD [] ++ src.ddg.getD []
  let results :=
    if results.length < 3 ∧ isTechQuery query then results ++ src.hn.getD []
    else results
  if results.length = 0 then noResultsMsg query
  else
    String.intercalate "\n\n"
      ((dedupeByUrl results).enum.map (fun p => formatSearchResult p.1 p.2))

/-! ### Statement helpers -/

/-- A finite JavaScript number lying in `[lo, hi]`. -/
def jsInRange (lo hi : ℚ) : JsNum → Bool
  | .finite q => decide (lo ≤ q ∧ q ≤ hi)
  | _ => false

/-- `s` starts with `p`. -/
def strStarts (s p : String) : Bool :=
  p.data.isPrefixOf s.data

/-- Number of `tool_call` entries in a transcript. -/
def countToolCalls (steps : List AgentStep) : ℕ :=
  (steps.filter (fun s => s.type = StepKind.tool_call)).length

/-- Every `tool_call` entry is immediately followed by a `tool_result`
entry for the same tool. -/
def callsPaired : List AgentStep → Bool
  | [] => true
  | [s] => !(s.type = StepKind.tool_call)
  | s :: r :: rest =>
    if s.type = StepKind.tool_call then
      r.type = StepKind.tool_result && r.toolName = s.toolName && callsPaired rest
    else callsPaired (r :: rest)

/-- The reasoning-effort field of a built request, when present. -/
def optionsReasoningEffort (args : GenArgs) : Option String :=
  match args.providerOptions with
  | some p => p.openai.reasoningEffort
  | none => none

/-! ### Shared lemmas -/

/-- Clamping through `Math.max`/`Math.min` yields `NaN` or a value in
range. -/
theorem jsClamp_nan_or_inRange (lo hi : ℚ) (h : lo ≤ hi) (x : JsNum) :
    jsMax (.finite lo) (jsMin (.finite hi) x) = .nan ∨
      jsInRange lo hi (jsMax (.finite lo) (jsMin (.finite hi) x)) = true := by
  cases x with
  | nan => left; rfl
  | posInf =>
    right
    have e : jsMax (.finite lo) (jsMin (.finite hi) .posInf) = .finite (max lo hi) := rfl
    rw [e]
    simp only [jsInRange, decide_eq_true_eq]
    exact ⟨le_max_left _ _, max_le h le_rfl⟩
  | negInf =>
    right
    have e : jsMax (.finite lo) (jsMin (.finite hi) .negInf) = .finite lo := rfl
    rw [e]
    simp only [jsInRange, decide_eq_true_eq]
    exact ⟨le_rfl, h⟩
  | finite q =>
    right
    have e : jsMax (.finite lo) (jsMin (.finite hi) (.finite q)) =
        .finite (max lo (min hi q)) := rfl
    rw [e]
    simp only [jsInRange, decide_eq_true_eq]
    exact ⟨le_max_left _ _, max_le h (min_le_left _ _)⟩

theorem objGet_map_set_self (m : List (String × ToolImpl)) (k : String) (v : ToolImpl)
    (h : m.any (fun p => p.1 = k) = true) :
    objGet (m.map (fun p => if p.1 = k then (k, v) else p)) k = some v := by
  induction m with
  | nil => simp at h
  | cons p rest ih =>
    by_cases hp : p.1 = k
    · simp only [List.map_cons, if_pos hp, objGet]
      simp
    · have h' : rest.any (fun p => p.1 = k) = true := by
        rw [List.any_cons] at h
        simpa [hp] using h
      simp only [List.map_cons, if_neg hp, objGet]
      exact ih h'

theorem objGet_append_single_self (m : List (String × ToolImpl)) (k : String)
    (v : ToolImpl) (h : m.any (fun p => p.1 = k) = false) :
    objGet (m ++ [(k, v)]) k = some v := by
  induction m with
  | nil => simp [objGet]
  | cons p rest ih =>
    rw [List.any_cons] at h
    have hp : p.1 ≠ k := by
      intro hk
      simp [hk] at h
    have h' : rest.any (fun p => p.1 = k) = false := by
      simpa [hp] using h
    simp only [List.cons_append, objGet]
    rw [if_neg hp]
    exact ih h'

theorem objGet_objSet_self (m : List (String × ToolImpl)) (k : String) (v : ToolImpl) :
    objGet (objSet m k v) k = some v := by
  unfold objSet
  by_cases h : m.any (fun p => p.1 = k) = true
  · rw [if_pos h]
    exact objGet_map_set_self m k v h
  · have hf : m.any (fun p => p.1 = k) = false := by
      cases hh : m.any (fun p => p.1 = k) with
      | true => exact absurd hh h
      | false => rfl
    rw [if_neg h]
    exact objGet_append_single_self m k v hf

theorem objGet_map_set_ne (m : List (String × ToolImpl)) (k k' : String) (v : ToolImpl)
    (h : k ≠ k') :
    objGet (m.map (fun p => if p.1 = k' then (k', v) else p)) k = objGet m k := by
  induction m with
  | nil => rfl
  | cons p rest ih =>
    by_cases hp : p.1 = k'
    · have hpk : p.1 ≠ k := by rw [hp]; exact Ne.symm h
      simp only [List.map_cons, if_pos hp, objGet]
      rw [if_neg (Ne.symm h), if_neg hpk]
      exact ih
    · by_cases hk : p.1 = k
      · simp only [List.map_cons, if_neg hp, objGet]
        rw [if_pos hk, if_pos hk]
      · simp only [List.map_cons, if_neg hp, objGet]
        rw [if_neg hk, if_neg hk]
        exact ih

theorem objGet_append_single_ne (m : List (String × ToolImpl)) (k k' : String)
    (v : ToolImpl) (h : k ≠ k') : objGet (m ++ [(k', v)]) k = objGet m k := by
  induction m with
  | nil => simp [objGet, Ne.symm h]
  | cons p rest ih =>
    simp only [List.cons_append, objGet]
    by_cases hk : p.1 = k
    · rw [if_pos hk, if_pos hk]
    · rw [if_neg hk, if_neg hk]
      exact ih

theorem objGet_objSet_ne (m : List (String × ToolImpl)) (k k' : String) (v : ToolImpl)
    (h : k ≠ k') : objGet (objSet m k' v) k = objGet m k := by
  unfold objSet
  by_cases hap : m.any (fun p => p.1 = k') = true
  · rw [if_pos hap]
    exact objGet_map_set_ne m k k' v h
  · rw [if_neg hap]
    exact objGet_append_single_ne m k k' v h

theorem foldl_preserves {α β : Type} (f : β → α → β) (P : β → Prop)
    (pres : ∀ b a, P b → P (f b a)) :
    ∀ (l : List α) (b : β), P b → P (l.foldl f b) := by
  intro l
  induction l with
  | nil => intro b hb; simpa using hb
  | cons a t ih =>
    intro b hb
    simpa using ih (f b a) (pres b a hb)

theorem foldl_mem_establishes {α β : Type} (f : β → α → β) (P : β → Prop) (x : α)
    (estab : ∀ b, P (f b x)) (pres : ∀ b a, P b → P (f b a)) :
    ∀ (l : List α) (b : β), x ∈ l → P (l.foldl f b) := by
  intro l
  induction l with
  | nil => intro b hb; simp at hb
  | cons a t ih =>
    intro b hb
    rcases List.mem_cons.mp hb with hx | hx
    · subst hx
      by_cases ht : x ∈ t
      · exact ih (f b x) ht
      · simpa using foldl_preserves f P pres t (f b x) (estab b)
    · exact ih (f b a) hx

theorem step_preserves_ws (m : List (String × ToolImpl)) (a : String)
    (h : objGet m "web_search" = some .webSearchNative) :
    objGet (buildToolsStep none m a) "web_search" = some .webSearchNative := by
  unfold buildToolsStep
  cases hava : objGet (allTools none) a with
  | some impl =>
    simp only [hava]
    by_cases hws : a = "web_search"
    · subst hws
      have : impl = .webSearchNative := by
        have : objGet (allTools none) "web_search" = some .webSearchNative := rfl
        rw [this] at hava
        exact (Option.some.inj hava).symm
      subst this
      exact objGet_objSet_self m _ _
    · rw [objGet_objSet_ne m _ a impl (fun hk => hws hk.symm)]
      exact h
  | none =>
    simp only [hava]
    by_cases hfs : a = "firecrawl_search"
    · simp only [hfs]
      simp only [Option.isNone_none, and_true, if_pos, or_false, eq_self_iff_true, if_true]
      simpa using objGet_objSet_self m "web_search" .webSearchNative
    · by_cases hsc : a = "firecrawl_scrape"
      · simp only [hsc]
        simp
        rw [objGet_objSet_ne m _ _ _ (by decide)]
        exact h
      · simp [hfs, hsc]
        exact h

theorem step_preserves_su (m : List (String × ToolImpl)) (a : String)
    (h : objGet m "scrape_url" = some .scrapeUrlNative) :
    objGet (buildToolsStep none m a) "scrape_url" = some .scrapeUrlNative := by
  unfold buildToolsStep
  cases hava : objGet (allTools none) a with
  | some impl =>
    simp only [hava]
    by_cases hws : a = "scrape_url"
    · subst hws
      have : impl = .scrapeUrlNative := by
        have : objGet (allTools none) "scrape_url" = some .scrapeUrlNative := rfl
        rw [this] at hava
        exact (Option.some.inj hava).symm
      subst this
      exact objGet_objSet_self m _ _
    · rw [objGet_objSet_ne m _ a impl (fun hk => hws hk.symm)]
      exact h
  | none =>
    simp only [hava]
    by_cases hfs : a = "firecrawl_search"
    · simp only [hfs]
      simp
      rw [objGet_objSet_ne m _ _ _ (by decide)]
      exact h
    · by_cases hsc : a = "firecrawl_scrape"
      · simp only [hsc]
        simp
        simpa using objGet_objSet_self m "scrape_url" .scrapeUrlNative
      · simp [hfs, hsc]
        exact h

theorem step_establishes_ws (m : List (String × ToolImpl)) :
    objGet (buildToolsStep none m "firecrawl_search") "web_search" =
      some .webSearchNative := by
  unfold buildToolsStep
  have hava : objGet (allTools none) "firecrawl_search" = none := rfl
  simp only [hava]
  simp
  exact objGet_objSet_self m "web_search" .webSearchNative

theorem step_establishes_su (m : List (String × ToolImpl)) :
    objGet (buildToolsStep none m "firecrawl_scrape") "scrape_url" =
      some .scrapeUrlNative := by
  unfold buildToolsStep
  have hava : objGet (allTools none) "firecrawl_scrape" = none := rfl
  simp only [hava]
  simp
  exact objGet_objSet_self m "scrape_url" .scrapeUrlNative

theorem step_no_firecrawl (m : List (String × ToolImpl)) (a fc : String)
    (hfc : fc = "firecrawl_search" ∨ fc = "firecrawl_scrape")
    (h : objGet m fc = none) :
    objGet (buildToolsStep none m a) fc = none := by
  have hfc_avail : objGet (allTools none) fc = none := by
    rcases hfc with h1 | h1 <;> rw [h1] <;> rfl
  unfold buildToolsStep
  cases hava : objGet (allTools none) a with
  | some impl =>
    simp only [hava]
    have hne : fc ≠ a := by
      intro hk
      rw [hk, hava] at hfc_avail
      exact Option.noConfusion hfc_avail
    rw [objGet_objSet_ne m fc a impl hne]
    exact h
  | none =>
    simp only [hava]
    have hne1 : fc ≠ "web_search" := by rcases hfc with h1 | h1 <;> rw [h1] <;> decide
    have hne2 : fc ≠ "scrape_url" := by rcases hfc with h1 | h1 <;> rw [h1] <;> decide
    by_cases hfs : a = "firecrawl_search"
    · simp only [hfs]
      simp
      rw [objGet_objSet_ne m fc _ _ hne1]
      exact h
    · by_cases hsc : a = "firecrawl_scrape"
      · simp only [hsc]
        simp
        rw [objGet_objSet_ne m fc _ _ hne2]
        exact h
      · simp [hfs, hsc]
        exact h

theorem countToolCalls_append (l1 l2 : List AgentStep) :
    countToolCalls (l1 ++ l2) = countToolCalls l1 + countToolCalls l2 := by
  unfold countToolCalls
  rw [List.filter_append, List.length_append]

theorem textEntries_count (ev : StepEvent) : countToolCalls (textEntries ev) = 0 := by
  unfold textEntries
  by_cases h : ev.text = ""
  · simp [h, countToolCalls]
  · simp [h, countToolCalls, List.filter]

theorem callsPaired_nonCall_cons (t : AgentStep) (ht : ¬t.type = StepKind.tool_call)
    (tail : List AgentStep) : callsPaired (t :: tail) = callsPaired tail := by
  cases tail with
  | nil => simp [callsPaired, ht]
  | cons r rest => simp [callsPaired, ht]

theorem textEntries_paired (ev : StepEvent) (tail : List AgentStep) :
    callsPaired (textEntries ev ++ tail) = callsPaired tail := by
  unfold textEntries
  by_cases h : ev.text = ""
  · simp [h]
  · simp only [h, Bool.false_eq_true, if_neg, not_false_iff, List.cons_append,
      List.nil_append]
    exact callsPaired_nonCall_cons _ (by simp) tail

theorem pushPairs_ok (tcs : List ToolCallEv) (trs : List ToolResultEv)
    (ps : List AgentStep) (h : pushPairs tcs trs = .ok ps) :
    countToolCalls ps = tcs.length ∧
      ∀ tail, callsPaired (ps ++ tail) = callsPaired tail := by
  induction tcs generalizing trs ps with
  | nil =>
    have : ps = [] := by
      have h' : (Except.ok [] : Except String (List AgentStep)) = .ok ps := h
      exact (Except.ok.inj h').symm
    subst this
    exact ⟨rfl, fun tail => rfl⟩
  | cons tc tcs' ih =>
    cases trs with
    | nil => exact Except.noConfusion h
    | cons tr trs' =>
      unfold pushPairs at h
      cases hrec : pushPairs tcs' trs' with
      | error e => rw [hrec] at h; exact Except.noConfusion h
      | ok rest =>
        rw [hrec] at h
        have hps : ps =
            { type := .tool_call, toolName := some tc.toolName,
              input := some tc.input } ::
            { type := .tool_result, toolName := some tc.toolName,
              output := some tr.output } :: rest := (Except.ok.inj h).symm
        subst hps
        obtain ⟨ihc, ihp⟩ := ih trs' rest hrec
        constructor
        · simp [countToolCalls, List.filter] at ihc ⊢
          omega
        · intro tail
          simp only [List.cons_append]
          simp [callsPaired]
          exact ihp tail

theorem eventSteps_ok (ev : StepEvent) (ps : List AgentStep) (n : ℕ)
    (h : eventSteps ev = .ok (ps, n)) :
    countToolCalls ps = n ∧
      ∀ tail, callsPaired (ps ++ tail) = callsPaired tail := by
  unfold eventSteps at h
  cases htc : ev.toolCalls with
  | none =>
    rw [htc] at h
    have hps : ps = textEntries ev ∧ n = 0 := by
      cases htr : ev.toolResults <;> rw [htr] at h <;>
        exact ⟨congrArg Prod.fst (Except.ok.inj h) |>.symm,
               congrArg Prod.snd (Except.ok.inj h) |>.symm⟩
    obtain ⟨h1, h2⟩ := hps
    subst h1; subst h2
    exact ⟨textEntries_count ev, textEntries_paired ev⟩
  | some tcs =>
    rw [htc] at h
    cases htr : ev.toolResults with
    | none =>
      rw [htr] at h
      have hps : ps = textEntries ev ∧ n = 0 :=
        ⟨congrArg Prod.fst (Except.ok.inj h) |>.symm,
         congrArg Prod.snd (Except.ok.inj h) |>.symm⟩
      obtain ⟨h1, h2⟩ := hps
      subst h1; subst h2
      exact ⟨textEntries_count ev, textEntries_paired ev⟩
    | some trs =>
      rw [htr] at h
      have h' : (match pushPairs tcs trs with
          | Except.ok ps0 => Except.ok (ps0 ++ textEntries ev, tcs.length)
          | Except.error e => Except.error e) =
          (Except.ok (ps, n) : Except String (List AgentStep × ℕ)) := h
      cases hpp : pushPairs tcs trs with
      | error e => rw [hpp] at h'; exact Except.noConfusion h'
      | ok ps' =>
        rw [hpp] at h'
        have h1 : ps = ps' ++ textEntries ev :=
          (congrArg Prod.fst (Except.ok.inj h')).symm
        have h2 : n = tcs.length :=
          (congrArg Prod.snd (Except.ok.inj h')).symm
        subst h1; subst h2
        obtain ⟨hc, hp⟩ := pushPairs_ok tcs trs ps' hpp
        constructor
        · rw [countToolCalls_append, hc, textEntries_count]
          omega
        · intro tail
          rw [List.append_assoc, hp (textEntries ev ++ tail),
            textEntries_paired ev tail]


theorem processEvents_ok (events : List StepEvent) (steps : List AgentStep) (cnt : ℕ)
    (h : processEvents events = .ok (steps, cnt)) :
    cnt = countToolCalls steps ∧ callsPaired steps = true := by
  induction events generalizing steps cnt with
  | nil =>
    have h1 : steps = [] ∧ cnt = 0 :=
      ⟨congrArg Prod.fst (Except.ok.inj h) |>.symm,
       congrArg Prod.snd (Except.ok.inj h) |>.symm⟩
    obtain ⟨h1, h2⟩ := h1
    subst h1; subst h2
    exact ⟨rfl, rfl⟩
  | cons ev rest ih =>
    unfold processEvents at h
    cases hev : eventSteps ev with
    | error e => rw [hev] at h; exact Except.noConfusion h
    | ok pn =>
      rw [hev] at h
      obtain ⟨ps, n⟩ := pn
      cases hrest : processEvents rest with
      | error e => rw [hrest] at h; exact Except.noConfusion h
      | ok tm =>
        rw [hrest] at h
        obtain ⟨tail, m⟩ := tm
        have h1 : steps = ps ++ tail :=
          (congrArg Prod.fst (Except.ok.inj h)).symm
        have h2 : cnt = n + m :=
          (congrArg Prod.snd (Except.ok.inj h)).symm
        subst h1; subst h2
        obtain ⟨ihc, ihp⟩ := ih tail m hrest
        obtain ⟨hec, hep⟩ := eventSteps_ok ev ps n hev
        refine ⟨?_, ?_⟩
        · rw [countToolCalls_append, hec, ihc]
        · rw [hep tail]
          exact ihp

theorem stepHandler_err_no_key (input : RunAgentCoreInput) (creds : AiAgentCredentials)
    (fck : Option String) (gen : GenArgs → GenOutcome)
    (hk : jsTruthyStr (getProviderApiKey creds (resolveProvider input)) = false) :
    stepHandler input creds fck gen = .err (noApiKeyMsg (resolveProvider input)) := by
  unfold stepHandler
  simp [hk]

theorem stepHandler_err_no_goal (input : RunAgentCoreInput) (creds : AiAgentCredentials)
    (fck : Option String) (gen : GenArgs → GenOutcome)
    (hk : jsTruthyStr (getProviderApiKey creds (resolveProvider input)) = true)
    (hg : jsTruthyStr (input.agentGoal.map jsTrim) = false) :
    stepHandler input creds fck gen = .err "Goal is required for the agent" := by
  unfold stepHandler
  simp [hk, hg]

theorem stepHandler_checks_pass (input : RunAgentCoreInput) (creds : AiAgentCredentials)
    (fck : Option String) (gen : GenArgs → GenOutcome)
    (hk : jsTruthyStr (getProviderApiKey creds (resolveProvider input)) = true)
    (hg : jsTruthyStr (input.agentGoal.map jsTrim) = true) :
    stepHandler input creds fck gen =
      (match gen (agentGenArgs input fck) with
       | .threw m => .err ("Agent execution failed: " ++ m)
       | .finished events text =>
         match processEvents events with
         | .error m => .err ("Agent execution failed: " ++ m)
         | .ok (steps, cnt) =>
           .ok (if text = "" then "Agent completed without a final response" else text)
             steps cnt) := by
  unfold stepHandler
  simp [hk, hg]

/-! ### Claims -/

/-- Claim C1, counterexample: the claim says input `"0"` yields an
effective step budget of `1`; in the code `Number.parseInt("0", 10)`
evaluates to `0`, which is falsy, so `|| 10` replaces it with the default
`10` before clamping — the budget passed to the stop condition is `10`,
not `1`. -/
theorem maxSteps_zero_gives_default_not_one :
    (agentGenArgs { agentMaxSteps := some "0" } none).stopWhenStepCount = 10 ∧
      (10 : ℤ) ≠ 1 := by
  constructor
  · rfl
  · decide

/-- Claim C1 (amended): the effective step budget passed to the
generation call's stop condition always lies in `[1, 50]`; input `"999"`
yields `50` and non-numeric input `"abc"` yields the default `10`, but
input `"0"` parses to the falsy value `0` and therefore yields the
default `10` rather than being clamped to `1`. -/
theorem maxSteps_clamped_into_range :
    (∀ (input : RunAgentCoreInput) (fck : Option String),
      1 ≤ (agentGenArgs input fck).stopWhenStepCount ∧
        (agentGenArgs input fck).stopWhenStepCount ≤ 50) ∧
    (agentGenArgs { agentMaxSteps := some "999" } none).stopWhenStepCount = 50 ∧
    (agentGenArgs { agentMaxSteps := some "abc" } none).stopWhenStepCount = 10 ∧
    (agentGenArgs { agentMaxSteps := some "0" } none).stopWhenStepCount = 10 := by
  refine ⟨fun input fck => ?_, rfl, rfl, rfl⟩
  have e : (agentGenArgs input fck).stopWhenStepCount = effMaxSteps input := rfl
  rw [e]
  unfold effMaxSteps
  constructor
  · exact le_min (by norm_num) (le_max_left 1 _)
  · exact min_le_left 50 _

/-- Claim C2, counterexample: with advanced options shown, the
non-empty unparsable temperature input `"abc"` is truthy, so the `||`
default is not applied; `parseFloat("abc")` is `NaN`, and `NaN`
propagates through `Math.min`/`Math.max`, so the value sent to the
generation call is `NaN` — neither within `[0, 2]` nor the documented
default `0.7`. -/
theorem temperature_unparsable_gives_nan :
    (agentGenArgs { agentShowAdvanced := some "true", agentTemperature := some "abc" }
        none).temperature = some JsNum.nan ∧
    jsInRange 0 2 JsNum.nan = false ∧
    JsNum.nan ≠ JsNum.finite (7 / 10) := by
  refine ⟨rfl, rfl, ?_⟩
  decide

/-- Claim C2 (amended): with advanced options shown, every temperature /
topP / frequency-penalty / presence-penalty value is either `NaN` or
clamped into its documented range (`[0,2]`, `[0,1]`, `[-2,2]`, `[-2,2]`);
a missing or empty input string falls back to the documented default
through `||`, but a non-empty unparsable string yields `NaN` (propagated
through the clamp) rather than the default. -/
theorem sampling_params_clamped_or_nan :
    (∀ input : RunAgentCoreInput,
      (effTemperature input = JsNum.nan ∨ jsInRange 0 2 (effTemperature input) = true) ∧
      (effTopP input = JsNum.nan ∨ jsInRange 0 1 (effTopP input) = true) ∧
      (effFrequencyPenalty input = JsNum.nan ∨
        jsInRange (-2) 2 (effFrequencyPenalty input) = true) ∧
      (effPresencePenalty input = JsNum.nan ∨
        jsInRange (-2) 2 (effPresencePenalty input) = true)) ∧
    effTemperature { agentShowAdvanced := some "true" } = JsNum.finite (7 / 10) ∧
    effTopP { agentShowAdvanced := some "true" } = JsNum.finite 1 ∧
    effFrequencyPenalty { agentShowAdvanced := some "true" } = JsNum.finite 0 ∧
    effPresencePenalty { agentShowAdvanced := some "true" } = JsNum.finite 0 := by
  refine ⟨fun input => ?_, by decide, by decide, by decide, by decide⟩
  refine ⟨?_, ?_, ?_, ?_⟩
  · unfold effTemperature
    by_cases h : showAdvanced input
    · rw [if_pos h]
      exact jsClamp_nan_or_inRange 0 2 (by norm_num) _
    · rw [if_neg h]
      right
      simp only [jsInRange, decide_eq_true_eq]
      norm_num
  · unfold effTopP
    by_cases h : showAdvanced input
    · rw [if_pos h]
      exact jsClamp_nan_or_inRange 0 1 (by norm_num) _
    · rw [if_neg h]
      right
      simp only [jsInRange, decide_eq_true_eq]
      norm_num
  · unfold effFrequencyPenalty
    by_cases h : showAdvanced input
    · rw [if_pos h]
      exact jsClamp_nan_or_inRange (-2) 2 (by norm_num) _
    · rw [if_neg h]
      right
      simp only [jsInRange, decide_eq_true_eq]
      norm_num
  · unfold effPresencePenalty
    by_cases h : showAdvanced input
    · rw [if_pos h]
      exact jsClamp_nan_or_inRange (-2) 2 (by norm_num) _
    · rw [if_neg h]
      right
      simp only [jsInRange, decide_eq_true_eq]
      norm_num

/-- Claim C3, counterexample: the claim says `calculate("DROP TABLE")`
returns `"Invalid expression"` because the non-whitelisted characters
strip to an empty string; in fact `\s` is in the whitelist, so the space
survives sanitization (`" "` is truthy) and evaluation of `return ( )`
fails, producing `"Could not evaluate expression"` instead. -/
theorem calculate_drop_table_not_invalid_expression :
    sanitizeCalc "DROP TABLE" = " " ∧
    calculate "DROP TABLE" = "Could not evaluate expression" ∧
    "Could not evaluate expression" ≠ "Invalid expression" := by
  refine ⟨rfl, rfl, ?_⟩
  decide

/-- Claim C3 (amended): `calculate("2+2") = "4"` and
`calculate("100*0.15") = "15"`; the sanitization whitelist is exactly the
character class `[0-9+\-*/().%\s]`; an input whose sanitized form is
empty returns the fixed string `"Invalid expression"` and an evaluation
failure returns the fixed string `"Could not evaluate expression"`, never
an exception — but `calculate("DROP TABLE")` sanitizes to a single space
(whitespace is whitelisted), so it takes the evaluation-failure branch,
not the empty-input branch. -/
theorem calculate_examples_and_whitelist :
    calculate "2+2" = "4" ∧
    calculate "100*0.15" = "15" ∧
    calculate "DROP TABLE" = "Could not evaluate expression" ∧
    (∀ s : String, (sanitizeCalc s).data = s.data.filter calcAllowed) ∧
    (∀ s : String, sanitizeCalc s = "" → calculate s = "Invalid expression") := by
  refine ⟨by decide, by decide, rfl, fun s => rfl, fun s h => ?_⟩
  unfold calculate
  rw [h]
  simp

/-- Witness for claim C3: `"DROP"` (no spaces) sanitizes to the empty
string and indeed returns `"Invalid expression"`. -/
theorem calculate_examples_and_whitelist_witness :
    calculate "DROP" = "Invalid expression" :=
  calculate_examples_and_whitelist.2.2.2.2 "DROP" (by decide)

/-- Claim C4, counterexample: the claim says the Firecrawl-to-native
substitution keeps the declared tool name, leaving the model-facing name
list unaffected by key availability; in fact the fallback registers the
native tool under its own native name (`web_search`), so selecting
`firecrawl_search` yields the name `web_search` without a key and
`firecrawl_search` with one. -/
theorem firecrawl_fallback_changes_tool_names :
    toolNames (buildTools ["firecrawl_search"] none) = ["web_search"] ∧
    toolNames (buildTools ["firecrawl_search"] (some "key")) = ["firecrawl_search"] ∧
    toolNames (buildTools ["firecrawl_search"] none) ≠
      toolNames (buildTools ["firecrawl_search"] (some "key")) := by
  refine ⟨rfl, rfl, ?_⟩
  decide

/-- Claim C4 (amended): when no Firecrawl API key is available, a
selection containing `firecrawl_search` (resp. `firecrawl_scrape`)
registers the native web-search (resp. native scrape) implementation —
but under the native name `web_search` (resp. `scrape_url`), and no tool
is registered under the premium name, so the model-facing tool name list
does change with key availability. -/
theorem firecrawl_fallback_registers_native_tools :
    ∀ sel : List String,
      ("firecrawl_search" ∈ sel →
        objGet (buildTools sel none) "web_search" = some ToolImpl.webSearchNative) ∧
      ("firecrawl_scrape" ∈ sel →
        objGet (buildTools sel none) "scrape_url" = some ToolImpl.scrapeUrlNative) ∧
      objGet (buildTools sel none) "firecrawl_search" = none ∧
      objGet (buildTools sel none) "firecrawl_scrape" = none := by
  intro sel
  refine ⟨?_, ?_, ?_, ?_⟩
  · intro hmem
    exact foldl_mem_establishes (buildToolsStep none)
      (fun m => objGet m "web_search" = some ToolImpl.webSearchNative)
      "firecrawl_search" (fun b => step_establishes_ws b)
      (fun b a h => step_preserves_ws b a h) sel [] hmem
  · intro hmem
    exact foldl_mem_establishes (buildToolsStep none)
      (fun m => objGet m "scrape_url" = some ToolImpl.scrapeUrlNative)
      "firecrawl_scrape" (fun b => step_establishes_su b)
      (fun b a h => step_preserves_su b a h) sel [] hmem
  · exact foldl_preserves (buildToolsStep none)
      (fun m => objGet m "firecrawl_search" = none)
      (fun b a h => step_no_firecrawl b a "firecrawl_search" (Or.inl rfl) h) sel [] rfl
  · exact foldl_preserves (buildToolsStep none)
      (fun m => objGet m "firecrawl_scrape" = none)
      (fun b a h => step_no_firecrawl b a "firecrawl_scrape" (Or.inr rfl) h) sel [] rfl

/-- Witness for claim C4: a concrete selection of both premium tools with
no key registers both native implementations under the native names. -/
theorem firecrawl_fallback_registers_native_tools_witness :
    objGet (buildTools ["firecrawl_search", "firecrawl_scrape"] none) "web_search" =
        some ToolImpl.webSearchNative ∧
      objGet (buildTools ["firecrawl_search", "firecrawl_scrape"] none) "scrape_url" =
        some ToolImpl.scrapeUrlNative :=
  ⟨(firecrawl_fallback_registers_native_tools ["firecrawl_search", "firecrawl_scrape"]).1
      (by decide),
   (firecrawl_fallback_registers_native_tools ["firecrawl_search", "firecrawl_scrape"]).2.1
      (by decide)⟩

/-- Claim C5: for every run in which generation completes (whatever
sequence of step-finish callbacks occurred) and the handler returns
success, the `toolCalls` count equals the number of `tool_call` entries
in the returned steps, and every `tool_call` entry is immediately
followed by its paired `tool_result` entry. -/
theorem toolCalls_count_matches_transcript :
    ∀ (input : RunAgentCoreInput) (creds : AiAgentCredentials) (fck : Option String)
      (events : List StepEvent) (ftext r : String) (steps : List AgentStep) (cnt : ℕ),
      stepHandler input creds fck (fun _ => GenOutcome.finished events ftext) =
        RunAgentResult.ok r steps cnt →
      cnt = countToolCalls steps ∧ callsPaired steps = true := by
  intro input creds fck events ftext r steps cnt h
  cases hk : jsTruthyStr (getProviderApiKey creds (resolveProvider input)) with
  | false =>
    rw [stepHandler_err_no_key input creds fck _ hk] at h
    exact RunAgentResult.noConfusion h
  | true =>
    cases hg : jsTruthyStr (input.agentGoal.map jsTrim) with
    | false =>
      rw [stepHandler_err_no_goal input creds fck _ hk hg] at h
      exact RunAgentResult.noConfusion h
    | true =>
      rw [stepHandler_checks_pass input creds fck _ hk hg] at h
      have h2 : (match processEvents events with
          | Except.error m => RunAgentResult.err ("Agent execution failed: " ++ m)
          | Except.ok (s, c) =>
            RunAgentResult.ok
              (if ftext = "" then "Agent completed without a final response" else ftext)
              s c) = RunAgentResult.ok r steps cnt := h
      cases hpe : processEvents events with
      | error m =>
        rw [hpe] at h2
        exact RunAgentResult.noConfusion h2
      | ok sc =>
        obtain ⟨s, c⟩ := sc
        rw [hpe] at h2
        obtain ⟨-, hs, hc⟩ := RunAgentResult.ok.inj h2
        rw [← hs, ← hc]
        exact processEvents_ok events s c hpe

/-- Witness for claim C5: a concrete successful run with one paired tool
call and a step text. -/
theorem toolCalls_count_matches_transcript_witness :
    1 = countToolCalls
        [{ type := StepKind.tool_call, toolName := some "calculate",
           input := some [("expression", "1+1")] },
         { type := StepKind.tool_result, toolName := some "calculate",
           output := some "2" },
         { type := StepKind.text, text := some "step done" }] ∧
      callsPaired
        [{ type := StepKind.tool_call, toolName := some "calculate",
           input := some [("expression", "1+1")] },
         { type := StepKind.tool_result, toolName := some "calculate",
           output := some "2" },
         { type := StepKind.text, text := some "step done" }] = true :=
  toolCalls_count_matches_transcript
    { agentGoal := some "run" } { AI_GATEWAY_API_KEY := some "k" } none
    [{ toolCalls := some [{ toolName := "calculate", input := [("expression", "1+1")] }],
       toolResults := some [{ output := "2" }], text := "step done" }]
    "final" "final" _ 1 (by decide)

/-- Claim C6: the request passed to the generation service contains the
temperature / topP / frequency-penalty / presence-penalty fields exactly
when the model id is not reasoning-class (contains neither `/o1` nor
`/o3`), and contains a reasoning-effort field in its provider options
exactly when it is reasoning-class. -/
theorem reasoning_model_field_selection :
    ∀ (input : RunAgentCoreInput) (fck : Option String),
      ((agentGenArgs input fck).temperature.isNone =
        isReasoningModel (agentGenArgs input fck).model) ∧
      ((agentGenArgs input fck).topP.isNone =
        isReasoningModel (agentGenArgs input fck).model) ∧
      ((agentGenArgs input fck).frequencyPenalty.isNone =
        isReasoningModel (agentGenArgs input fck).model) ∧
      ((agentGenArgs input fck).presencePenalty.isNone =
        isReasoningModel (agentGenArgs input fck).model) ∧
      ((optionsReasoningEffort (agentGenArgs input fck)).isSome =
        isReasoningModel (agentGenArgs input fck).model) := by
  intro input fck
  have hm : (agentGenArgs input fck).model =
      resolveModelId input (resolveProvider input) := rfl
  rw [hm]
  cases hr : isReasoningModel (resolveModelId input (resolveProvider input)) with
  | true =>
    refine ⟨?_, ?_, ?_, ?_, ?_⟩ <;>
      simp [agentGenArgs, optionsReasoningEffort, buildProviderOptions, hr] <;>
      by_cases hj : jsOrStr input.agentResponseFormat "text" = "json" <;>
      simp [hj]
  | false =>
    refine ⟨?_, ?_, ?_, ?_, ?_⟩ <;>
      simp [agentGenArgs, optionsReasoningEffort, buildProviderOptions, hr] <;>
      by_cases hj : jsOrStr input.agentResponseFormat "text" = "json" <;>
      simp [hj]

theorem strStarts_append (p a b : String) (h : p.data <+: a.data) :
    strStarts (a ++ b) p = true := by
  unfold strStarts
  rw [String.data_append, List.isPrefixOf_iff_prefix]
  exact h.trans (List.prefix_append _ _)

/-- Claim C7: with neither a truthy provider-specific key for the
selected provider nor a truthy AI Gateway key, the handler returns a
failure whose message names the (capitalized) requested provider, for
every generation service (generation is never consulted); a truthy
provider-specific key is always preferred, and otherwise the gateway key
is the fallback. -/
theorem credential_resolution_policy :
    (∀ (input : RunAgentCoreInput) (creds : AiAgentCredentials) (fck : Option String)
        (gen : GenArgs → GenOutcome),
      jsTruthyStr (specificKey creds (resolveProvider input)) = false →
      jsTruthyStr creds.AI_GATEWAY_API_KEY = false →
      stepHandler input creds fck gen =
          RunAgentResult.err (noApiKeyMsg (resolveProvider input)) ∧
        (capitalizeJs (resolveProvider input)).data <:+:
          (noApiKeyMsg (resolveProvider input)).data) ∧
    (∀ (creds : AiAgentCredentials) (provider : String),
      jsTruthyStr (specificKey creds provider) = true →
      getProviderApiKey creds provider = specificKey creds provider) ∧
    (∀ (creds : AiAgentCredentials) (provider : String),
      jsTruthyStr (specificKey creds provider) = false →
      getProviderApiKey creds provider = creds.AI_GATEWAY_API_KEY) := by
  refine ⟨fun input creds fck gen h1 h2 => ⟨?_, ?_⟩,
    fun creds provider h => ?_, fun creds provider h => ?_⟩
  · have hk : jsTruthyStr (getProviderApiKey creds (resolveProvider input)) = false := by
      unfold getProviderApiKey
      rw [h1]
      simpa using h2
    exact stepHandler_err_no_key input creds fck gen hk
  · refine ⟨"No API key configured for ".data,
      (". Please add either a " ++ capitalizeJs (resolveProvider input) ++
        " API key or an AI Gateway key in Project Integrations.").data, ?_⟩
    simp [noApiKeyMsg, String.data_append, List.append_assoc]
  · unfold getProviderApiKey
    rw [h]
    simp
  · unfold getProviderApiKey
    rw [h]
    simp

/-- Witness for claim C7: no credentials at all with provider
`anthropic` fails naming `Anthropic`; a provider key beats the gateway
key; the gateway key is the fallback. -/
theorem credential_resolution_policy_witness :
    (stepHandler { agentProvider := some "anthropic" } {} none
        (fun _ => GenOutcome.threw "never") =
      RunAgentResult.err (noApiKeyMsg "anthropic")) ∧
    ("Anthropic".data <:+: (noApiKeyMsg "anthropic").data) ∧
    getProviderApiKey { OPENAI_API_KEY := some "sk", AI_GATEWAY_API_KEY := some "gw" }
        "openai" = some "sk" ∧
    getProviderApiKey { AI_GATEWAY_API_KEY := some "gw" } "openai" = some "gw" :=
  ⟨(credential_resolution_policy.1 { agentProvider := some "anthropic" } {} none
      (fun _ => GenOutcome.threw "never") (by decide) (by decide)).1,
   (credential_resolution_policy.1 { agentProvider := some "anthropic" } {} none
      (fun _ => GenOutcome.threw "never") (by decide) (by decide)).2,
   (credential_resolution_policy.2.1
      { OPENAI_API_KEY := some "sk", AI_GATEWAY_API_KEY := some "gw" } "openai"
      (by decide)).trans rfl,
   (credential_resolution_policy.2.2 { AI_GATEWAY_API_KEY := some "gw" } "openai"
      (by decide)).trans rfl⟩

/-- Claim C8: whenever the fetch inside `scrapeUrl` throws (network
error) or returns a non-ok (non-2xx) response, the tool returns a string
starting with `Failed to scrape URL:`; the embedded function is total, so
no exception crosses the tool boundary. This holds for every
content-extraction pipeline `extract`. -/
theorem scrape_failures_return_error_string :
    ∀ (extract : String → String) (msg : String) (status : ℕ) (statusText body : String),
      strStarts (scrapeUrl extract (FetchOutcome.threw msg)) "Failed to scrape URL:" = true ∧
      strStarts (scrapeUrl extract (FetchOutcome.resp false status statusText body))
        "Failed to scrape URL:" = true := by
  intro extract msg status statusText body
  constructor
  · have e : scrapeUrl extract (.threw msg) = "Failed to scrape URL: " ++ msg := rfl
    rw [e]
    exact strStarts_append _ _ _ (by decide)
  · have e : scrapeUrl extract (.resp false status statusText body) =
        "Failed to scrape URL: " ++ ("HTTP " ++ toString status ++ ": " ++ statusText) := rfl
    rw [e]
    exact strStarts_append _ _ _ (by decide)

/-- Claim C9, counterexample: the claim says the no-results return value
is a fixed `"No results found"` sentinel; in fact the message
interpolates the query (`No search results found for "<query>". ...`), so
it is neither the literal `"No results found"` nor the same string for
two different queries. -/
theorem webSearch_sentinel_is_query_specific :
    webSearch "a" {} ≠ "No results found" ∧
    webSearch "a" {} ≠ webSearch "b" {} := by
  constructor <;> decide

/-- Claim C9 (amended): when every search source fails or contributes
zero results, `webSearch` returns the query-specific sentinel
`No search results found for "<query>". Try rephrasing your query or
using more specific terms.` — never an empty string, and (the embedded
function being total) never an exception. -/
theorem webSearch_no_results_sentinel :
    ∀ (q : String) (src : WebSources),
      src.wiki.getD [] = [] → src.ddg.getD [] = [] → src.hn.getD [] = [] →
      webSearch q src = noResultsMsg q ∧ webSearch q src ≠ "" := by
  intro q src hw hd hh
  have hs : webSearch q src = noResultsMsg q := by
    unfold webSearch
    rw [hw, hd, hh]
    simp
  refine ⟨hs, ?_⟩
  rw [hs]
  intro he
  have hl := congrArg String.length he
  rw [noResultsMsg] at hl
  rw [String.length_append, String.length_append] at hl
  have h1 : ("No search results found for \"" : String).length = 29 := by decide
  have h2 : ("\". Try rephrasing your query or using more specific terms." : String).length
      = 58 := by decide
  rw [h1, h2] at hl
  simp at hl

/-- Witness for claim C9: the concrete query `quantum` with all three
sources failing. -/
theorem webSearch_no_results_sentinel_witness :
    webSearch "quantum" { wiki := none, ddg := none, hn := none } =
        noResultsMsg "quantum" ∧
      webSearch "quantum" { wiki := none, ddg := none, hn := none } ≠ "" :=
  webSearch_no_results_sentinel "quantum" { wiki := none, ddg := none, hn := none }
    rfl rfl rfl

/-- Claim C10: the API-key check precedes the goal check — with no
truthy resolved key the result is the missing-API-key failure for every
generation service and every goal (including a missing or
whitespace-only goal); and with a key but a missing/blank goal the
result is the goal failure, again for every generation service. In both
cases the failure record carries only a message (the `err` constructor
has no transcript fields). -/
theorem key_check_precedes_goal_check :
    (∀ (input : RunAgentCoreInput) (creds : AiAgentCredentials) (fck : Option String)
        (gen : GenArgs → GenOutcome),
      jsTruthyStr (getProviderApiKey creds (resolveProvider input)) = false →
      stepHandler input creds fck gen =
        RunAgentResult.err (noApiKeyMsg (resolveProvider input))) ∧
    (∀ (input : RunAgentCoreInput) (creds : AiAgentCredentials) (fck : Option String)
        (gen : GenArgs → GenOutcome),
      jsTruthyStr (getProviderApiKey creds (resolveProvider input)) = true →
      jsTruthyStr (input.agentGoal.map jsTrim) = false →
      stepHandler input creds fck gen =
        RunAgentResult.err "Goal is required for the agent") :=
  ⟨stepHandler_err_no_key, stepHandler_err_no_goal⟩

/-- Witness for claim C10: a run with no key and no goal fails with the
missing-key message; a run with a gateway key and a whitespace-only goal
fails with the goal message. -/
theorem key_check_precedes_goal_check_witness :
    (stepHandler {} {} none (fun _ => GenOutcome.threw "a") =
      RunAgentResult.err (noApiKeyMsg "openai")) ∧
    (stepHandler { agentGoal := some "   " } { AI_GATEWAY_API_KEY := some "gw" } none
        (fun _ => GenOutcome.threw "b") =
      RunAgentResult.err "Goal is required for the agent") :=
  ⟨key_check_precedes_goal_check.1 {} {} none (fun _ => GenOutcome.threw "a") (by decide),
   key_check_precedes_goal_check.2 { agentGoal := some "   " }
      { AI_GATEWAY_API_KEY := some "gw" } none (fun _ => GenOutcome.threw "b")
      (by decide) (by decide)⟩

end AiAgent
